import Mathlib

/-!
Verification of the cider-app configuration/execution engine.

Shallow embedding of the Rust sources, primarily:
  - src/utils/config.rs     (data model: ShareableConfiguration, Action, Pipeline, ...)
  - src/utils/parsing.rs    (json_parser: three-level configuration resolution)
  - src/utils/executor.rs   (backend dispatch, docker artifact generation,
                             piped-output classification)

Conventions of the embedding:
  - Rust HashMap<String,String> is modelled as an association list
    List (String × String); only the stored contents matter to the claims.
  - The JSON tree consumed from the `json` crate is modelled by the
    inductive `Json` below, with accessors mirroring the crate's behaviour
    (indexing a non-object or a missing key yields null; `to_string` of a
    string value is the raw string; `as_str` is none on non-strings).
  - `current_dir()` is passed explicitly as a `root` parameter.
  - `RelativePath::new(raw).to_path(root)` is modelled by `toPath`:
    the non-empty `/`-separated components of `raw` (`.` and `..` kept,
    matching the crate, which does not collapse them on `to_path`) are
    appended under `root`.
  - Rust panics are modelled as `Except.error` with the panic message;
    `Option::unwrap()` on `None` is modelled by a fixed message.
  - OS-conditional code is modelled on the POSIX (`cfg!(windows) = false`)
    branches throughout.
  - Subprocess execution is an oracle `Oracle` mapping the shell command
    string and working directory to captured stdout/stderr and an exit
    status; spawning itself is totalised (spawn failure is environmental).
-/

namespace Cider

/-- Message produced by a Rust `Option::unwrap()` panic on a `None` value. -/
def unwrapNoneMsg : String := "called Option::unwrap() on a None value"

/-- Model of the `json` crate's `JsonValue` tree. -/
inductive Json where
  | null : Json
  | bool (b : Bool) : Json
  | num (n : Int) : Json
  | str (s : String) : Json
  | obj (entries : List (String × Json)) : Json
  | arr (elems : List Json) : Json

/-- Indexing `json[key]`: first entry of an object with that key, else null
(the crate returns `&JsonValue::Null` for missing keys and non-objects). -/
def Json.get (j : Json) (key : String) : Json :=
  match j with
  | .obj entries =>
    match entries.find? (fun kv => kv.1 = key) with
    | some kv => kv.2
    | none => .null
  | _ => .null

/-- Models `JsonValue::is_null`. -/
def Json.isNull : Json → Bool
  | .null => true
  | _ => false

/-- Models `JsonValue::entries()`: the key/value pairs of an object, in
insertion order; empty for every other variant. -/
def Json.entries : Json → List (String × Json)
  | .obj es => es
  | _ => []

/-- Models `JsonValue::members()`: the elements of an array, in order;
empty for every other variant. -/
def Json.members : Json → List Json
  | .arr es => es
  | _ => []

/-- Models `JsonValue::to_string()` (the crate's `Display`): a string value
displays as its raw contents, scalars as their literal form. The textual
dump of composite values is abstracted; no code path modelled here relies
on it. -/
def Json.toRaw : Json → String
  | .null => "null"
  | .bool b => cond b "true" "false"
  | .num n => toString n
  | .str s => s
  | .obj _ => "<object>"
  | .arr _ => "<array>"

/-- Models `JsonValue::as_str()`: some for string values, none otherwise. -/
def Json.asStr : Json → Option String
  | .str s => some s
  | _ => none

/-- Models `JsonValue::as_i8()`: numeric values in the i8 range convert,
everything else is none. -/
def Json.asI8 : Json → Option Int
  | .num n => if -128 ≤ n ∧ n ≤ 127 then some n else none
  | _ => none

/-- Models `JsonValue::as_bool()`. -/
def Json.asBool : Json → Option Bool
  | .bool b => some b
  | _ => none

/-- String operations are modelled on the character list of the string so
that every definition evaluates by kernel reduction. Lower-casing models
Rust `str::to_lowercase` (the strings compared here are ASCII). -/
def lowerStr (s : String) : String :=
  String.mk (s.data.map Char.toLower)

/-- Models `str::is_empty`. -/
def strIsEmpty (s : String) : Bool :=
  s.data.isEmpty

/-- Models `str::starts_with` with a character pattern. -/
def startsWithChar (s : String) (c : Char) : Bool :=
  match s.data with
  | [] => false
  | d :: _ => d = c

/-- Is `pat` a prefix of `s` (on character lists)? -/
def isPrefixList (pat s : List Char) : Bool :=
  match pat, s with
  | [], _ => true
  | _ :: _, [] => false
  | p :: ps, c :: cs => p = c && isPrefixList ps cs

/-- Does `s` contain `pat` as a contiguous subsequence? -/
def containsSeq (pat : List Char) : List Char → Bool
  | [] => isPrefixList pat []
  | c :: cs => isPrefixList pat (c :: cs) || containsSeq pat cs

/-- Does `s` contain `pat` as a substring (Rust `str::contains` for a
string pattern)? -/
def hasSubstr (s pat : String) : Bool :=
  containsSeq pat.data s.data

/-- Split around the last occurrence of `pat` in `s` (character lists):
the characters before it and the characters after it. -/
def rsplitOnceList (pat : List Char) : List Char → Option (List Char × List Char)
  | [] => none
  | c :: cs =>
    match rsplitOnceList pat cs with
    | some pr => some (c :: pr.1, pr.2)
    | none =>
      if isPrefixList pat (c :: cs) then some ([], (c :: cs).drop pat.length)
      else none

/-- Models Rust `str::rsplit_once`: split around the last occurrence of
`sep`, none when `sep` does not occur. -/
def rsplitOnce (s sep : String) : Option (String × String) :=
  match rsplitOnceList sep.data s.data with
  | none => none
  | some pr => some (String.mk pr.1, String.mk pr.2)

/-- Split a character list on every occurrence of the character `sep`
(Rust `str::split(char)` semantics: n separators yield n+1 pieces). -/
def splitCharList (sep : Char) : List Char → List (List Char)
  | [] => [[]]
  | c :: cs =>
    let r := splitCharList sep cs
    if c = sep then [] :: r
    else
      match r with
      | [] => [[c]]
      | h :: t => (c :: h) :: t

/-- Split a string on a separator character. -/
def splitChar (s : String) (sep : Char) : List String :=
  (splitCharList sep s.data).map String.mk

/-- Models Rust `str::trim_end`: drop trailing whitespace. -/
def trimEndStr (s : String) : String :=
  String.mk ((s.data.reverse.dropWhile Char.isWhitespace).reverse)

/-- Models Rust `str::trim`: drop leading and trailing whitespace. -/
def trimStr (s : String) : String :=
  String.mk (((s.data.dropWhile Char.isWhitespace).reverse.dropWhile
    Char.isWhitespace).reverse)

/-- Models `RelativePath::new(raw).to_path(root)` on POSIX: append the
non-empty `/`-separated components of `raw` (`.` and `..` components are
kept verbatim; the crate does not collapse them in `to_path`) under
`root`. -/
def toPath (raw root : String) : String :=
  ((splitChar raw '/').filter (fun c => c ≠ "")).foldl
    (fun acc c => acc ++ "/" ++ c) root

/-! ## Data model (src/utils/config.rs) -/

/-- Fields shareable between configuration levels. The `ignore_dirs` field
is present in the revision used by `parsing.rs` and `executor.rs` (both
construct and read it); the stored fields otherwise follow
`ShareableConfiguration` in src/utils/config.rs. -/
structure ShareableConfiguration where
  metadata : Option (List (String × String))
  title : Option String
  tags : Option (List (String × String))
  language : String
  image : Option String
  backend : String
  output : String
  source : String
  ignore_dirs : Option (List String)
deriving Repr, DecidableEq

/-- Models `ShareableConfiguration::new`: every field is stored as given
except `image`, which is forced to none whenever `backend` is not
case-insensitively "docker". -/
def ShareableConfiguration.new
    (metadata : Option (List (String × String)))
    (title : Option String)
    (tags : Option (List (String × String)))
    (language : String)
    (image : Option String)
    (backend : String)
    (output : String)
    (source : String)
    (ignore_dirs : Option (List String)) : ShareableConfiguration :=
  let image := if ¬ (lowerStr backend = "docker") then none else image
  ⟨metadata, title, tags, language, image, backend, output, source, ignore_dirs⟩

/-- Models `ShareableConfiguration::set_image` (src/utils/config.rs lines
344-351): on a non-docker backend the method warns and clears `image`, but
then unconditionally stores the new image anyway. -/
def ShareableConfiguration.setImage
    (c : ShareableConfiguration) (newImage : String) : ShareableConfiguration :=
  let c := if ¬ (lowerStr c.backend = "docker") then { c with image := none } else c
  { c with image := some newImage }

/-- Models `ShareableConfiguration::set_source` (src/utils/config.rs lines
466-469): the body assigns the new source string to the `backend` field. -/
def ShareableConfiguration.setSource
    (c : ShareableConfiguration) (newSource : String) : ShareableConfiguration :=
  { c with backend := newSource }

/-- Condition (name and expression), never evaluated by the executor. -/
structure Condition where
  name : String
  condition : String
deriving Repr, DecidableEq

/-- One named shell command of an action's manual. -/
structure Step where
  name : String
  script : String
deriving Repr, DecidableEq

/-- Action-specific configuration. -/
structure ActionConfig where
  conditions : Option (List Condition)
  retries : Int
  allowed_failure : Bool
  manual : List Step
deriving Repr, DecidableEq

/-- Models `ActionConfig::new`: retries defaults to 0, allowed_failure to
false. -/
def ActionConfig.new (conditions : Option (List Condition))
    (retries : Option Int) (allowed_failure : Option Bool)
    (manual : List Step) : ActionConfig :=
  ⟨conditions, retries.getD 0, allowed_failure.getD false, manual⟩

/-- An action: shareable configuration plus action configuration. -/
structure Action where
  shared_config : ShareableConfiguration
  action_config : ActionConfig
deriving Repr, DecidableEq

/-- Pipeline-specific configuration. -/
structure PipelineConfig where
  conditions : Option (List Condition)
  action_defs : List String
  actions : List Action
  has_run : Bool
  requires : List String
deriving Repr, DecidableEq

/-- Models `PipelineConfig::new`: has_run starts false, requires defaults
to the empty list. -/
def PipelineConfig.new (conditions : Option (List Condition))
    (action_defs : List String) (actions : List Action)
    (requires : Option (List String)) : PipelineConfig :=
  ⟨conditions, action_defs, actions, false, requires.getD []⟩

/-- A pipeline: shareable configuration plus pipeline configuration. -/
structure Pipeline where
  shared_config : ShareableConfiguration
  pipeline_config : PipelineConfig
deriving Repr, DecidableEq

/-- The whole resolved configuration. -/
structure TopLevelConfiguration where
  s_config : ShareableConfiguration
  pipeline_defs : List String
  pipelines : List Pipeline
  action_defs : List String
  actions : List Action
deriving Repr, DecidableEq

/-- Models `TopLevelConfiguration::get_all_actions`: top-level actions in
order, then each pipeline's actions in order, pipelines visited in order. -/
def TopLevelConfiguration.getAllActions (t : TopLevelConfiguration) : List Action :=
  let actions := t.actions.foldl (fun acc a => acc ++ [a]) []
  t.pipelines.foldl
    (fun acc p => p.pipeline_config.actions.foldl (fun acc a => acc ++ [a]) acc)
    actions

/-! ## Configuration builder (src/utils/parsing.rs, json_parser) -/

/-- Models `parse_json_map`: the entries of a JSON object as key/value
strings, in order. -/
def parseJsonMap (j : Json) : List (String × String) :=
  j.entries.map (fun kv => (kv.1, kv.2.toRaw))

/-- Models `parse_json_to_conditions`. -/
def parseJsonToConditions (j : Json) : List Condition :=
  j.entries.map (fun kv => ⟨kv.1, kv.2.toRaw⟩)

/-- Models `parse_json_to_steps`: each object entry becomes a step named by
the key with the value as script, in order. -/
def parseJsonToSteps (j : Json) : List Step :=
  j.entries.map (fun kv => ⟨kv.1, kv.2.toRaw⟩)

/-- Models `parse_json_vector`: the members of a JSON array as strings. -/
def parseJsonVector (j : Json) : List String :=
  j.members.map Json.toRaw

/-- Models the `ignore_directories` resolution loop shared by
`parse_action`, `parse_pipeline` and `parse_shared_config`: each member
must be a JSON string (`as_str().unwrap()` panics otherwise); entries that
start with a path separator or contain a drive-letter colon pass through
unchanged, all others are joined under `root`. -/
def resolveIgnoreEntries (root : String) (js : List Json) :
    Except String (List String) :=
  match js with
  | [] => .ok []
  | d :: rest =>
    match d.asStr with
    | none => .error unwrapNoneMsg
    | some s => do
      let tail ← resolveIgnoreEntries root rest
      if startsWithChar s '/' ∨ hasSubstr s ":" then
        .ok (s :: tail)
      else
        .ok (toPath s root :: tail)

/-- Models the shared-configuration construction common to `parse_action`
(src/utils/parsing.rs lines 99-199) and `parse_pipeline` (lines 271-373);
the two functions contain this code verbatim. `sc` is the enclosing
level's resolved configuration, `name` the definition name, `root` the
process working directory. -/
def resolveSharedFromJson (sc : ShareableConfiguration) (j : Json)
    (name root : String) : Except String ShareableConfiguration :=
  let backend :=
    if (j.get "backend").isNull then sc.backend else (j.get "backend").toRaw
  let image :=
    if ¬ (lowerStr backend = "docker") ∧ ¬ (backend = "") ∧
        backend ≠ "bash" ∧ backend ≠ "batch" then
      none
    else if (j.get "image").isNull then
      sc.image
    else
      some (j.get "image").toRaw
  let output :=
    if (j.get "output_directory").isNull then sc.output
    else toPath (j.get "output_directory").toRaw root
  let source :=
    if (j.get "source_directory").isNull then sc.source
    else if startsWithChar (j.get "source_directory").toRaw '/' ∨
        hasSubstr (j.get "source_directory").toRaw ":" then
      (j.get "source_directory").toRaw
    else toPath (j.get "source_directory").toRaw root
  let ignoreRes :=
    if (j.get "ignore_directories").isNull then
      Except.ok sc.ignore_dirs
    else
      match resolveIgnoreEntries root (j.get "ignore_directories").members with
      | .error e => .error e
      | .ok dirs => .ok (if ¬ dirs.isEmpty then some dirs else none)
  match ignoreRes with
  | .error e => .error e
  | .ok ignore =>
    .ok (ShareableConfiguration.new
      (if (j.get "metadata").isNull then none
       else some (parseJsonMap (j.get "metadata")))
      (some name)
      (if (j.get "tags").isNull then none
       else some (parseJsonMap (j.get "tags")))
      (if (j.get "language").isNull then sc.language
       else (j.get "language").toRaw)
      image backend output source ignore)

/-- Models the `ActionConfig::new` argument block of `parse_action`
(src/utils/parsing.rs lines 201-239): conditions normalise empty to none,
retries/allowed_failure must coerce when present (fatal otherwise, naming
the action), and an empty manual is fatal, naming the action. -/
def parseActionConfig (j : Json) (name : String) : Except String ActionConfig :=
  let conditions :=
    let cs := parseJsonToConditions (j.get "conditions")
    if cs.isEmpty then none else some cs
  let retriesRes : Except String (Option Int) :=
    if (j.get "retries").isNull then
      Except.ok (some (0 : Int))
    else
      match (j.get "retries").asI8 with
      | some n => Except.ok (some n)
      | none => Except.error ("There was no valid value for retries in the configuration. Error occured in Action: " ++ name)
  let allowedRes : Except String (Option Bool) :=
    if (j.get "allowed_failure").isNull then
      Except.ok (some false)
    else
      match (j.get "allowed_failure").asBool with
      | some b => Except.ok (some b)
      | none => Except.error ("There was no valid value for failure allowance in the configuration. Please provide a boolean value. Error occured in Action: " ++ name)
  match retriesRes with
  | .error e => .error e
  | .ok retries =>
    match allowedRes with
    | .error e => .error e
    | .ok allowed =>
      let manual := parseJsonToSteps (j.get "manual")
      if manual.isEmpty then
        Except.error ("Actions require at least one step in their manual. Error occured in Action: " ++ name)
      else
        Except.ok (ActionConfig.new conditions retries allowed manual)

/-- Models `parse_action`: a null sub-document is fatal; otherwise the
shared configuration is resolved against the enclosing level and the
action configuration is parsed. -/
def parseAction (sc : ShareableConfiguration) (j : Json) (name root : String) :
    Except String Action :=
  if j.isNull then
    .error ("Could not find action defined with appropriate tag: " ++ name)
  else
    match resolveSharedFromJson sc j name root with
    | .error e => .error e
    | .ok s =>
      match parseActionConfig j name with
      | .error e => .error e
      | .ok c => .ok ⟨s, c⟩

/-- Models `parse_action_defs`: resolve each declared action name against
the raw document, in order; the first failure aborts. -/
def parseActionDefs (sc : ShareableConfiguration) (root : String) (data : Json) :
    List String → Except String (List Action)
  | [] => .ok []
  | n :: rest =>
    match parseAction sc (data.get n) n root with
    | .error e => .error e
    | .ok a =>
      match parseActionDefs sc root data rest with
      | .error e => .error e
      | .ok tail => .ok (a :: tail)

/-- Models `parse_pipeline`: a null sub-document is fatal; the pipeline's
shared configuration is resolved against the root, its `actions` list is
mandatory, and each named action is resolved against the pipeline's own
shared configuration. -/
def parsePipeline (sc : ShareableConfiguration) (j : Json) (name root : String) :
    Except String Pipeline :=
  if j.isNull then
    .error ("No pipeline found with the name: " ++ name)
  else
    match resolveSharedFromJson sc j name root with
    | .error e => .error e
    | .ok s =>
      let conditions :=
        let cs := parseJsonToConditions (j.get "conditions")
        if cs.isEmpty then none else some cs
      if (j.get "actions").isNull then
        .error "No list of action definitions found!"
      else
        match parseActionDefs s root j (parseJsonVector (j.get "actions")) with
        | .error e => .error e
        | .ok actions =>
          let requires :=
            if (j.get "requires").isNull then none
            else some (parseJsonVector (j.get "requires"))
          .ok ⟨s, PipelineConfig.new conditions (parseJsonVector (j.get "actions"))
            actions requires⟩

/-- Models `parse_pipeline_defs`. -/
def parsePipelineDefs (sc : ShareableConfiguration) (root : String) (data : Json) :
    List String → Except String (List Pipeline)
  | [] => .ok []
  | n :: rest =>
    match parsePipeline sc (data.get n) n root with
    | .error e => .error e
    | .ok p =>
      match parsePipelineDefs sc root data rest with
      | .error e => .error e
      | .ok tail => .ok (p :: tail)

/-- Models `parse_shared_config` (src/utils/parsing.rs lines 408-531): the
root level, with the full default table (backend "bash", language
"Python", output "./dist/cider/", source "./", the five default ignore
directories) applied for absent fields. -/
def parseSharedConfig (j : Json) (root : String) :
    Except String ShareableConfiguration :=
  let backend :=
    if (j.get "backend").isNull then "bash" else (j.get "backend").toRaw
  let image :=
    if ¬ (lowerStr backend = "docker") ∧ ¬ (backend = "") ∧
        backend ≠ "bash" ∧ backend ≠ "batch" then
      none
    else if (j.get "image").isNull then
      none
    else
      some (j.get "image").toRaw
  let output :=
    if (j.get "output_directory").isNull then toPath "./dist/cider/" root
    else toPath (j.get "output_directory").toRaw root
  let source :=
    if (j.get "source_directory").isNull then toPath "./" root
    else if startsWithChar (j.get "source_directory").toRaw '/' ∨
        hasSubstr (j.get "source_directory").toRaw ":" then
      (j.get "source_directory").toRaw
    else toPath (j.get "source_directory").toRaw root
  let ignoreRes :=
    if (j.get "ignore_directories").isNull then
      Except.ok (some [toPath "./dist" root, toPath "./metrics" root,
        toPath "./target" root, toPath "./.git" root, toPath "./.github" root])
    else
      match resolveIgnoreEntries root (j.get "ignore_directories").members with
      | .error e => .error e
      | .ok dirs => .ok (if ¬ dirs.isEmpty then some dirs
          else some ["./dist", "./target", "./.github", "./.git", "./metrics"])
  match ignoreRes with
  | .error e => .error e
  | .ok ignore =>
    .ok (ShareableConfiguration.new
      (if (j.get "metadata").isNull then none
       else some (parseJsonMap (j.get "metadata")))
      (some (j.get "title").toRaw)
      (if (j.get "tags").isNull then none
       else some (parseJsonMap (j.get "tags")))
      (if (j.get "language").isNull then "Python"
       else (j.get "language").toRaw)
      image backend output source ignore)

/-- The top-level `pipelines` declaration list of a document. -/
def topPipelineDefs (doc : Json) : List String :=
  if (doc.get "pipelines").isNull then [] else parseJsonVector (doc.get "pipelines")

/-- The top-level `actions` declaration list of a document. -/
def topActionDefs (doc : Json) : List String :=
  if (doc.get "actions").isNull then [] else parseJsonVector (doc.get "actions")

/-- Models `new_top_level` after the external file read and JSON text
parse: root shared configuration, then pipelines, then top-level actions. -/
def newTopLevel (doc : Json) (root : String) :
    Except String TopLevelConfiguration :=
  match parseSharedConfig doc root with
  | .error e => .error e
  | .ok s =>
    match parsePipelineDefs s root doc (topPipelineDefs doc) with
    | .error e => .error e
    | .ok pipelines =>
      match parseActionDefs s root doc (topActionDefs doc) with
      | .error e => .error e
      | .ok actions =>
        .ok ⟨s, topPipelineDefs doc, pipelines, topActionDefs doc, actions⟩

/-! ## Backend executor (src/utils/executor.rs) -/

/-- Captured result of a finished subprocess. -/
structure SubprocessResult where
  stdout : String
  stderr : String
  status : Int
deriving Repr, DecidableEq

/-- Environment oracle: maps the shell command string and the working
directory it runs in to the subprocess result. -/
def Oracle : Type := String → String → SubprocessResult

/-- The log level at which a collected output entry is reported. -/
inductive LogLevel where
  | infoLevel : LogLevel
  | errorLevel : LogLevel
  | noOutput : LogLevel
deriving Repr, DecidableEq

/-- The sentinel entry emitted when a piped subprocess produced neither
stdout nor stderr. -/
def noOutputSentinel : String :=
  "No standard output detected. Check to see if it was piped to another file."

/-- Models `collect_piped_output` (src/utils/executor.rs lines 428-448):
non-empty stdout is logged at info level and emitted trimmed of trailing
whitespace; otherwise non-empty stderr is logged at error level and
emitted trimmed; otherwise the sentinel string is emitted. The exit
status carried by the result is never inspected. -/
def collectPipedOutput (out : SubprocessResult) : String × LogLevel :=
  if strIsEmpty out.stdout then
    if strIsEmpty out.stderr then
      (noOutputSentinel, .noOutput)
    else
      (trimEndStr out.stderr, .errorLevel)
  else
    (trimEndStr out.stdout, .infoLevel)

/-- Execution-ready projection of one action. -/
structure ExecInfo where
  backend : String
  image : Option String
  title : Option String
  tags : Option (List (String × String))
  metadata : Option (List (String × String))
  output : String
  source : String
  conditions : Option (List Condition)
  manual : List Step
  retries : Int
  allowed_failure : Bool
  ignore_dirs : Option (List String)
deriving Repr, DecidableEq

/-- Models `ExecInfo::new`: a field-by-field copy of the action's two
configuration halves. -/
def ExecInfo.new (a : Action) : ExecInfo :=
  { backend := a.shared_config.backend
    image := a.shared_config.image
    title := a.shared_config.title
    tags := a.shared_config.tags
    metadata := a.shared_config.metadata
    output := a.shared_config.output
    source := a.shared_config.source
    conditions := a.action_config.conditions
    manual := a.action_config.manual
    retries := a.action_config.retries
    allowed_failure := a.action_config.allowed_failure
    ignore_dirs := a.shared_config.ignore_dirs }

/-- Models `clean_script_pathing`: whitespace-split tokens containing
"../" or "./" are resolved against the process working directory, all
other tokens pass through unchanged. -/
def cleanScriptPathing (root script : String) : List String :=
  (splitChar script ' ').map (fun item =>
    if hasSubstr item "../" ∨ hasSubstr item "./" then toPath item root
    else item)

/-- Models `command_setup_unix`'s argument assembly: the tokens joined by
single spaces (each token followed by a space) and then trimmed, handed to
`sh -c` in the given working directory. -/
def argString (args : List String) : String :=
  trimStr (args.foldl (fun acc arg => acc ++ arg ++ " ") "")

/-- One bash step on POSIX: announce the step, clean its script, run it
through the oracle in the action's source directory, and classify the
piped output. -/
def runStep (env : Oracle) (root source : String) (step : Step) : List String :=
  let announce := "Running " ++ step.name
  let script := cleanScriptPathing root step.script
  let res := env (argString script) source
  [announce, (collectPipedOutput res).1]

/-- Models `run_bash_scripts` on POSIX: each step runs as its own `sh -c`
subprocess, outputs accumulated in order. -/
def runBashScripts (env : Oracle) (root : String) (info : ExecInfo) : List String :=
  info.manual.foldl (fun outputs step => outputs ++ runStep env root info.source step) []

/-- Models `run_batch_script` on POSIX (non-Windows): batch is
unsupported, a single log line is emitted and execution is skipped. -/
def runBatchScript (_info : ExecInfo) : List String :=
  ["A batch script was unable to be processed on Linux and was taken care of safely."]

/-- Models `image_setup`: a missing image defaults to "alpine:latest" with
a notice pushed to the outputs. -/
def imageSetup (info : ExecInfo) : ExecInfo × List String :=
  match info.image with
  | none => ({ info with image := some "alpine:latest" },
      ["There was no docker image found to build off of. Using Alpine Linux by default."])
  | some _ => (info, [])

/-- Models `generate_dockerignore` (src/utils/executor.rs lines 44-65) on
POSIX: one line per `ignore_dirs` entry, each entry rewritten to the part
after its last "./" occurrence (`rsplit_once("./").unwrap()`); a missing
`ignore_dirs` or an entry without "./" panics. Returns the file body. -/
def generateDockerignore (info : ExecInfo) : Except String String :=
  match info.ignore_dirs with
  | none => .error unwrapNoneMsg
  | some dirs =>
    dirs.foldl
      (fun acc dir =>
        match acc with
        | .error e => .error e
        | .ok s =>
          match rsplitOnce dir "./" with
          | none => .error unwrapNoneMsg
          | some pr => .ok (s ++ pr.2 ++ "\r\n"))
      (Except.ok "")

/-- Models `generate_dockerfile` (src/utils/executor.rs lines 66-94): FROM
the configured image, WORKDIR, COPY, then a single RUN accumulation where
every step that is not equal (by value) to the last step of the manual is
followed by an " && \"-continuation. Returns the file body. -/
def generateDockerfile (info : ExecInfo) : Except String String :=
  match info.image with
  | none => .error unwrapNoneMsg
  | some img =>
    let hdr := "FROM " ++ img ++ "\r\n" ++ "WORKDIR /cider/app\r\n" ++
      "COPY . ./\r\n" ++ "RUN "
    let body :=
      match info.manual.getLast? with
      | none => ""
      | some lastStep =>
        info.manual.foldl
          (fun acc step =>
            if step ≠ lastStep then acc ++ step.script ++ " && \\\r\n    "
            else acc ++ step.script)
          ""
    .ok (hdr ++ body)

/-- Models `run_with_docker` on POSIX: default the image, write the
ignore file and the Dockerfile (either can panic), then run the three
docker stages with inherited stdio (their output is streamed, not
captured, so nothing is pushed for them). -/
def runWithDocker (_env : Oracle) (info : ExecInfo) : Except String (List String) :=
  let st := imageSetup info
  match generateDockerignore st.1 with
  | .error e => .error e
  | .ok _ =>
    match generateDockerfile st.1 with
    | .error e => .error e
    | .ok _ => .ok st.2

/-- Models `exec_action` (src/utils/executor.rs lines 31-42): dispatch on
the lower-cased backend; any string other than "bash", "batch", "bat" or
"docker" panics with "Specified backend not supported". -/
def execAction (env : Oracle) (root : String) (a : Action) :
    Except String (List String) :=
  let info := ExecInfo.new a
  let b := lowerStr info.backend
  if b = "bash" then .ok (runBashScripts env root info)
  else if b = "batch" then .ok (runBatchScript info)
  else if b = "bat" then .ok (runBatchScript info)
  else if b = "docker" then runWithDocker env info
  else .error "Specified backend not supported"

/-- Models `exec_actions` (src/utils/executor.rs lines 21-28): run the
actions in order, collecting one output list per action; a panic anywhere
aborts the whole run and no collected output survives. -/
def execActions (env : Oracle) (root : String) :
    List Action → Except String (List (List String))
  | [] => .ok []
  | a :: rest =>
    match execAction env root a with
    | .error e => .error e
    | .ok out =>
      match execActions env root rest with
      | .error e => .error e
      | .ok tail => .ok (out :: tail)

/-- Chained RUN payload as the specification describes it: every step's
script in manual order joined by " && \"-continuations, the final step
without one. Used to compare the generated Dockerfile against the spec. -/
def chainedRunScripts : List Step → String
  | [] => ""
  | [s] => s.script
  | s :: rest => s.script ++ " && \\\r\n    " ++ chainedRunScripts rest

/-- Split every entry around its last "./" occurrence; none when some
entry has no "./" occurrence. The per-entry suffixes are what the
ignore-file writes. -/
def rsplitAllDotSlash : List String → Option (List (String × String))
  | [] => some []
  | d :: rest =>
    match rsplitOnce d "./" with
    | none => none
    | some pr =>
      match rsplitAllDotSlash rest with
      | none => none
      | some tail => some (pr :: tail)

/-- Ignore-file body as the specification describes it: one line per
entry, in order, each line the part of the entry after its resolved
prefix. -/
def dockerignoreLinesFromPairs : List (String × String) → String
  | [] => ""
  | pr :: rest => pr.2 ++ "\r\n" ++ dockerignoreLinesFromPairs rest

/-- An action whose backend matches none of the supported dispatch arms,
case-insensitively. -/
def unsupportedBackend (a : Action) : Prop :=
  lowerStr a.shared_config.backend ∉ (["bash", "batch", "bat", "docker"] : List String)

/-! ## Helper lemmas -/

theorem foldl_push_eq_append {α : Type} (l acc : List α) :
    l.foldl (fun acc a => acc ++ [a]) acc = acc ++ l := by
  induction l generalizing acc with
  | nil => simp
  | cons a l ih => simp [List.foldl_cons, ih]

theorem foldl_pipelines_eq_append (ps : List Pipeline) (acc : List Action) :
    ps.foldl
      (fun acc p => p.pipeline_config.actions.foldl (fun acc a => acc ++ [a]) acc)
      acc
    = acc ++ (ps.map (fun p => p.pipeline_config.actions)).flatten := by
  induction ps generalizing acc with
  | nil => simp
  | cons p ps ih =>
    rw [List.foldl_cons, foldl_push_eq_append, ih]
    simp [List.append_assoc]

/-! ## Claims -/

/-- Claim C9: get_all_actions returns the top-level actions in declared
order followed by each pipeline's actions in stored order, pipelines in
pipelines order, and the length is the top-level count plus the sum of
the pipeline action counts. -/
theorem c9_get_all_actions_order_length (t : TopLevelConfiguration) :
    t.getAllActions
      = t.actions ++ (t.pipelines.map (fun p => p.pipeline_config.actions)).flatten ∧
    t.getAllActions.length
      = t.actions.length
        + (t.pipelines.map (fun p => p.pipeline_config.actions.length)).sum := by
  have h : t.getAllActions
      = t.actions ++ (t.pipelines.map (fun p => p.pipeline_config.actions)).flatten := by
    unfold TopLevelConfiguration.getAllActions
    rw [foldl_push_eq_append, List.nil_append, foldl_pipelines_eq_append]
  refine ⟨h, ?_⟩
  rw [h]
  simp only [List.length_append, List.length_flatten, List.map_map]
  rfl

/-- Claim C10: set_source leaves the source field unchanged and instead
overwrites the backend field with the given value; every field other than
backend keeps its prior value. -/
theorem c10_set_source_overwrites_backend (c : ShareableConfiguration) (v : String) :
    (c.setSource v).source = c.source ∧
    (c.setSource v).backend = v ∧
    (c.setSource v).metadata = c.metadata ∧
    (c.setSource v).title = c.title ∧
    (c.setSource v).tags = c.tags ∧
    (c.setSource v).language = c.language ∧
    (c.setSource v).image = c.image ∧
    (c.setSource v).output = c.output ∧
    (c.setSource v).ignore_dirs = c.ignore_dirs :=
  ⟨rfl, rfl, rfl, rfl, rfl, rfl, rfl, rfl, rfl⟩

/-- Claim C4: the output entry of a piped execution is determined solely
by the captured streams: non-empty stdout is emitted trimmed at info
level; else non-empty stderr is emitted at error level; else the sentinel
string is emitted; the exit status never influences the classification. -/
theorem c4_piped_output_classification (r : SubprocessResult) :
    (¬ strIsEmpty r.stdout → collectPipedOutput r = (trimEndStr r.stdout, .infoLevel)) ∧
    (strIsEmpty r.stdout → ¬ strIsEmpty r.stderr →
      collectPipedOutput r = (trimEndStr r.stderr, .errorLevel)) ∧
    (strIsEmpty r.stdout → strIsEmpty r.stderr →
      collectPipedOutput r = (noOutputSentinel, .noOutput)) ∧
    (∀ st : Int, collectPipedOutput { r with status := st } = collectPipedOutput r) := by
  refine ⟨fun h => ?_, fun h h' => ?_, fun h h' => ?_, fun st => ?_⟩ <;>
    simp_all [collectPipedOutput]

/-- Witness for C4: a concrete subprocess result with trailing-whitespace
stdout is classified at info level with the trailing whitespace trimmed. -/
theorem c4_piped_output_classification_witness :
    ¬ strIsEmpty ("hi \n" : String) ∧
    collectPipedOutput ⟨"hi \n", "err", 3⟩
      = (trimEndStr ("hi \n" : String), LogLevel.infoLevel) :=
  ⟨by decide, (c4_piped_output_classification ⟨"hi \n", "err", 3⟩).1 (by decide)⟩

theorem parseActionConfig_ok_manual {j : Json} {name : String} {c : ActionConfig}
    (h : parseActionConfig j name = .ok c) :
    c.manual = parseJsonToSteps (j.get "manual") ∧
    parseJsonToSteps (j.get "manual") ≠ [] := by
  simp only [parseActionConfig] at h
  split at h
  · exact absurd h (by simp)
  · split at h
    · exact absurd h (by simp)
    · split at h
      · exact absurd h (by simp)
      · rename_i hne
        cases h
        refine ⟨rfl, ?_⟩
        simpa [List.isEmpty_iff] using hne

theorem parseAction_ok_manual {sc : ShareableConfiguration} {j : Json}
    {name root : String} {a : Action}
    (h : parseAction sc j name root = .ok a) :
    a.action_config.manual = parseJsonToSteps (j.get "manual") ∧
    parseJsonToSteps (j.get "manual") ≠ [] := by
  unfold parseAction at h
  split at h
  · exact absurd h (by simp)
  · split at h
    · exact absurd h (by simp)
    · split at h
      · exact absurd h (by simp)
      · rename_i hc
        cases h
        exact parseActionConfig_ok_manual hc

theorem parseAction_empty_manual_not_ok {sc : ShareableConfiguration} {j : Json}
    {name root : String} {a : Action}
    (hm : parseJsonToSteps (j.get "manual") = []) :
    parseAction sc j name root ≠ .ok a := by
  intro h
  exact (parseAction_ok_manual h).2 hm

theorem parseActionDefs_empty_manual_not_ok {sc : ShareableConfiguration}
    {root : String} {data : Json} {defs : List String} {name : String}
    {l : List Action}
    (hmem : name ∈ defs)
    (hm : parseJsonToSteps ((data.get name).get "manual") = []) :
    parseActionDefs sc root data defs ≠ .ok l := by
  induction defs generalizing l with
  | nil => cases hmem
  | cons n rest ih =>
    intro h
    unfold parseActionDefs at h
    split at h
    · exact absurd h (by simp)
    · rename_i ha
      rcases List.mem_cons.mp hmem with rfl | hmem'
      · exact parseAction_empty_manual_not_ok hm ha
      · split at h
        · exact absurd h (by simp)
        · rename_i htail
          exact ih hmem' htail

/-- Claim C5: an action whose manual parses to an empty step sequence
makes configuration building fail before any execution: the action-config
parse of such an action fails with a fatal error naming the action (shown
here for an action whose retries and allowed_failure fields are absent,
so that parsing reaches the manual check), parse_action never succeeds on
it, a document declaring such an action never builds a
TopLevelConfiguration, and every successfully constructed Action has a
non-empty manual. -/
theorem c5_empty_manual_fails_construction :
    (∀ (j : Json) (name : String),
      parseJsonToSteps (j.get "manual") = [] →
      (j.get "retries").isNull = true →
      (j.get "allowed_failure").isNull = true →
      parseActionConfig j name
        = .error ("Actions require at least one step in their manual. Error occured in Action: " ++ name)) ∧
    (∀ (sc : ShareableConfiguration) (j : Json) (name root : String) (a : Action),
      parseJsonToSteps (j.get "manual") = [] →
      parseAction sc j name root ≠ .ok a) ∧
    (∀ (doc : Json) (root name : String) (t : TopLevelConfiguration),
      name ∈ topActionDefs doc →
      parseJsonToSteps ((doc.get name).get "manual") = [] →
      newTopLevel doc root ≠ .ok t) ∧
    (∀ (sc : ShareableConfiguration) (j : Json) (name root : String) (a : Action),
      parseAction sc j name root = .ok a →
      a.action_config.manual ≠ []) := by
  refine ⟨?_, ?_, ?_, ?_⟩
  · intro j name hm hr ha
    simp only [parseActionConfig, hr, ha, if_true, hm]
    simp
  · intro sc j name root a hm
    exact parseAction_empty_manual_not_ok hm
  · intro doc root name t hmem hm h
    unfold newTopLevel at h
    split at h
    · exact absurd h (by simp)
    · split at h
      · exact absurd h (by simp)
      · split at h
        · exact absurd h (by simp)
        · rename_i hacts
          exact parseActionDefs_empty_manual_not_ok hmem hm hacts
  · intro sc j name root a h
    have := parseAction_ok_manual h
    rw [this.1]
    exact this.2

/-- Witness for C5: the action sub-document `{}` has an empty manual,
absent retries and absent allowed_failure, and its action-config parse
fails with the error naming the action. -/
theorem c5_empty_manual_fails_construction_witness :
    parseJsonToSteps ((Json.obj []).get "manual") = [] ∧
    parseActionConfig (Json.obj []) "build"
      = .error ("Actions require at least one step in their manual. Error occured in Action: " ++ "build") :=
  ⟨rfl, c5_empty_manual_fails_construction.1 (Json.obj []) "build" rfl rfl rfl⟩

/-- Claim C2 (amended): at a sub-level (action or pipeline — both use the
identical shared-configuration construction), a field present in the raw
sub-document is used (paths resolved), and a field absent there inherits
the enclosing level's resolved value unmodified — for language, backend,
output, source and ignore_dirs, and for image provided the resolved
backend is docker (a non-docker resolved backend forces image to none).
Metadata and tags, however, are never inherited: absent at a level means
none regardless of the parent's value. -/
theorem c2_amended_field_resolution
    (sc : ShareableConfiguration) (j : Json) (name root : String)
    (s : ShareableConfiguration)
    (h : resolveSharedFromJson sc j name root = .ok s) :
    (s.language = if (j.get "language").isNull then sc.language
      else (j.get "language").toRaw) ∧
    (s.backend = if (j.get "backend").isNull then sc.backend
      else (j.get "backend").toRaw) ∧
    (s.output = if (j.get "output_directory").isNull then sc.output
      else toPath (j.get "output_directory").toRaw root) ∧
    (s.source = if (j.get "source_directory").isNull then sc.source
      else if startsWithChar (j.get "source_directory").toRaw '/' ∨
          hasSubstr (j.get "source_directory").toRaw ":" then
        (j.get "source_directory").toRaw
      else toPath (j.get "source_directory").toRaw root) ∧
    ((j.get "ignore_directories").isNull = true →
      s.ignore_dirs = sc.ignore_dirs) ∧
    (∀ dirs : List String,
      (j.get "ignore_directories").isNull = false →
      resolveIgnoreEntries root (j.get "ignore_directories").members = .ok dirs →
      s.ignore_dirs = if ¬ dirs.isEmpty then some dirs else none) ∧
    (s.image = if lowerStr s.backend = "docker" then
        (if (j.get "image").isNull then sc.image else some (j.get "image").toRaw)
      else none) ∧
    (s.metadata = if (j.get "metadata").isNull then none
      else some (parseJsonMap (j.get "metadata"))) ∧
    (s.tags = if (j.get "tags").isNull then none
      else some (parseJsonMap (j.get "tags"))) ∧
    (s.title = some name) := by
  simp only [resolveSharedFromJson] at h
  split at h
  · exact absurd h (by simp)
  · rename_i ignore hig
    cases h
    refine ⟨rfl, rfl, rfl, rfl, ?_, ?_, ?_, rfl, rfl, rfl⟩
    · intro hnull
      simp only [ShareableConfiguration.new]
      simp only [hnull] at hig
      simp at hig
      exact hig.symm
    · intro dirs hnull hres
      simp only [ShareableConfiguration.new]
      simp only [hnull] at hig
      simp only [Bool.false_eq_true, if_false, hres] at hig
      exact (Except.ok.injEq _ _ |>.mp hig).symm
    · simp only [ShareableConfiguration.new]
      by_cases hd : lowerStr (if (j.get "backend").isNull then sc.backend
          else (j.get "backend").toRaw) = "docker"
      · simp [hd]
      · simp [hd]

/-- Counterexample for C2 as stated: a pipeline-level configuration with
metadata `{k: v}` and an action sub-document without a metadata field
resolve to an action configuration whose metadata is none, not the
pipeline's value — metadata is not inherited from the enclosing level. -/
theorem c2_counterexample_metadata_not_inherited :
    (ShareableConfiguration.new (some [("k", "v")]) (some "p") none "bash" none
        "bash" "/o" "/s" (some ["/r/./dist"])).metadata = some [("k", "v")] ∧
    ((Json.obj [("manual", Json.obj [("s1", Json.str "echo hi")])]).get
        "metadata").isNull = true ∧
    resolveSharedFromJson
        (ShareableConfiguration.new (some [("k", "v")]) (some "p") none "bash"
          none "bash" "/o" "/s" (some ["/r/./dist"]))
        (Json.obj [("manual", Json.obj [("s1", Json.str "echo hi")])]) "a" "/r"
      = .ok ⟨none, some "a", none, "bash", none, "bash", "/o", "/s",
          some ["/r/./dist"]⟩ ∧
    (none : Option (List (String × String))) ≠ some [("k", "v")] :=
  ⟨rfl, rfl, rfl, by decide⟩

/-- Witness for C2 (amended): the amended field-resolution theorem applied
to a concrete action sub-document that overrides language and leaves
metadata absent. -/
theorem c2_amended_field_resolution_witness :
    resolveSharedFromJson
        (ShareableConfiguration.new none (some "p") none "Python" none "bash"
          "/o" "/s" none)
        (Json.obj [("language", Json.str "Rust"),
          ("manual", Json.obj [("s1", Json.str "echo hi")])]) "a" "/r"
      = .ok ⟨none, some "a", none, "Rust", none, "bash", "/o", "/s", none⟩ ∧
    (⟨none, some "a", none, "Rust", none, "bash", "/o", "/s", none⟩
        : ShareableConfiguration).language
      = if ((Json.obj [("language", Json.str "Rust"),
          ("manual", Json.obj [("s1", Json.str "echo hi")])]).get
            "language").isNull then
          (ShareableConfiguration.new none (some "p") none "Python" none "bash"
            "/o" "/s" none).language
        else ((Json.obj [("language", Json.str "Rust"),
          ("manual", Json.obj [("s1", Json.str "echo hi")])]).get
            "language").toRaw :=
  ⟨rfl,
    (c2_amended_field_resolution
      (ShareableConfiguration.new none (some "p") none "Python" none "bash"
        "/o" "/s" none)
      (Json.obj [("language", Json.str "Rust"),
        ("manual", Json.obj [("s1", Json.str "echo hi")])]) "a" "/r"
      _ rfl).1⟩

/-- Claim C6 (amended): at the root level, a raw source_directory that
looks absolute (leading separator or drive-letter colon) is returned
unchanged and a relative one is joined under the working directory, with
the default "./" applied when absent; a raw output_directory however is
always joined under the working directory — the absolute-path check is
applied to source but not to output (absent output defaults to
"./dist/cider/" joined under root). -/
theorem c6_amended_path_resolution (j : Json) (root : String)
    (s : ShareableConfiguration)
    (h : parseSharedConfig j root = .ok s) :
    (s.source = if (j.get "source_directory").isNull then toPath "./" root
      else if startsWithChar (j.get "source_directory").toRaw '/' ∨
          hasSubstr (j.get "source_directory").toRaw ":" then
        (j.get "source_directory").toRaw
      else toPath (j.get "source_directory").toRaw root) ∧
    (s.output = if (j.get "output_directory").isNull then
        toPath "./dist/cider/" root
      else toPath (j.get "output_directory").toRaw root) := by
  simp only [parseSharedConfig] at h
  split at h
  · exact absurd h (by simp)
  · cases h
    exact ⟨rfl, rfl⟩

/-- Counterexample for C6 as stated: an absolute raw output_directory
"/abs/path" is not returned unchanged — the root level joins it under the
working directory "/a/b", yielding "/a/b/abs/path". -/
theorem c6_counterexample_absolute_output_joined :
    startsWithChar "/abs/path" '/' = true ∧
    parseSharedConfig (Json.obj [("output_directory", Json.str "/abs/path")])
        "/a/b"
      = .ok ⟨none, some "null", none, "Python", none, "bash", "/a/b/abs/path",
          "/a/b/.", some ["/a/b/./dist", "/a/b/./metrics", "/a/b/./target",
            "/a/b/./.git", "/a/b/./.github"]⟩ ∧
    ("/a/b/abs/path" : String) ≠ "/abs/path" :=
  ⟨rfl, rfl, by decide⟩

/-- Witness for C6 (amended): a document with the absolute source
directory "/abs/src", resolved against root "/a/b", keeps the source
unchanged while the absent output defaults to "./dist/cider/" joined
under the root. -/
theorem c6_amended_path_resolution_witness :
    parseSharedConfig (Json.obj [("source_directory", Json.str "/abs/src")])
        "/a/b"
      = .ok ⟨none, some "null", none, "Python", none, "bash",
          "/a/b/./dist/cider", "/abs/src", some ["/a/b/./dist",
            "/a/b/./metrics", "/a/b/./target", "/a/b/./.git",
            "/a/b/./.github"]⟩ ∧
    (⟨none, some "null", none, "Python", none, "bash", "/a/b/./dist/cider",
        "/abs/src", some ["/a/b/./dist", "/a/b/./metrics", "/a/b/./target",
          "/a/b/./.git", "/a/b/./.github"]⟩ : ShareableConfiguration).source
      = if ((Json.obj [("source_directory", Json.str "/abs/src")]).get
            "source_directory").isNull then toPath "./" "/a/b"
        else if startsWithChar ((Json.obj [("source_directory",
              Json.str "/abs/src")]).get "source_directory").toRaw '/' ∨
            hasSubstr ((Json.obj [("source_directory",
              Json.str "/abs/src")]).get "source_directory").toRaw ":" then
          ((Json.obj [("source_directory", Json.str "/abs/src")]).get
            "source_directory").toRaw
        else toPath ((Json.obj [("source_directory", Json.str "/abs/src")]).get
          "source_directory").toRaw "/a/b" :=
  ⟨rfl,
    (c6_amended_path_resolution
      (Json.obj [("source_directory", Json.str "/abs/src")]) "/a/b" _ rfl).1⟩

theorem dockerfile_foldl_chain (lastS : Step) :
    ∀ (init : List Step) (acc : String), (∀ s ∈ init, s ≠ lastS) →
    (init ++ [lastS]).foldl
      (fun acc step =>
        if step ≠ lastS then acc ++ step.script ++ " && \\\r\n    "
        else acc ++ step.script) acc
    = acc ++ chainedRunScripts (init ++ [lastS])
  | [], acc, _ => by
    simp [chainedRunScripts]
  | s :: init, acc, hne => by
    have hs : s ≠ lastS := hne s (List.mem_cons_self s init)
    simp only [List.cons_append, List.foldl_cons, if_pos hs,
      ne_eq, not_false_iff, if_true]
    rw [dockerfile_foldl_chain lastS init _
      (fun x hx => hne x (List.mem_cons_of_mem s hx))]
    cases init with
    | nil => simp [chainedRunScripts, String.append_assoc]
    | cons b init => simp [chainedRunScripts, String.append_assoc]

/-- Claim C7 (amended): for an ExecInfo whose image is set and whose
manual's final step is not duplicated earlier in the manual, the generated
Dockerfile body is exactly a FROM line, WORKDIR /cider/app, COPY . ./ and
one RUN instruction chaining every step's script in manual order with
" && \"-continuations, the final step without one. (The source compares
each step by value against manual.last(), so an earlier step equal to the
final step loses its continuation — hence the duplication proviso.) -/
theorem c7_amended_dockerfile_chained_run (info : ExecInfo) (img : String)
    (init : List Step) (lastS : Step)
    (hi : info.image = some img)
    (hm : info.manual = init ++ [lastS])
    (hne : ∀ s ∈ init, s ≠ lastS) :
    generateDockerfile info
      = .ok ("FROM " ++ img ++ "\r\n" ++ "WORKDIR /cider/app\r\n" ++
          "COPY . ./\r\n" ++ "RUN " ++ chainedRunScripts info.manual) := by
  unfold generateDockerfile
  rw [hi, hm, List.getLast?_concat]
  simp only []
  rw [dockerfile_foldl_chain lastS init "" hne]
  simp [String.append_assoc]

/-- Counterexample for C7 as stated: with the manual
`[Step("a","echo 1"), Step("a","echo 1")]` — the final step duplicated
earlier — the generated RUN accumulation is "RUN echo 1echo 1": the first
occurrence lacks its continuation, so the body is not the claimed chained
form in which only the final step lacks a continuation. -/
theorem c7_counterexample_duplicate_last_step :
    generateDockerfile ⟨"docker", some "alpine", none, none, none, "/o", "/s",
        none, [⟨"a", "echo 1"⟩, ⟨"a", "echo 1"⟩], 0, false, none⟩
      = .ok "FROM alpine\r\nWORKDIR /cider/app\r\nCOPY . ./\r\nRUN echo 1echo 1" ∧
    ("FROM alpine\r\nWORKDIR /cider/app\r\nCOPY . ./\r\nRUN echo 1echo 1"
        : String)
      ≠ "FROM alpine\r\n" ++ "WORKDIR /cider/app\r\n" ++ "COPY . ./\r\n" ++
        "RUN " ++ chainedRunScripts [⟨"a", "echo 1"⟩, ⟨"a", "echo 1"⟩] :=
  ⟨rfl, by decide⟩

/-- Witness for C7 (amended): a two-step manual with distinct steps yields
the single chained RUN instruction. -/
theorem c7_amended_dockerfile_chained_run_witness :
    generateDockerfile ⟨"docker", some "alpine", none, none, none, "/o", "/s",
        none, [⟨"a", "echo 1"⟩, ⟨"b", "echo 2"⟩], 0, false, none⟩
      = .ok ("FROM " ++ "alpine" ++ "\r\n" ++ "WORKDIR /cider/app\r\n" ++
          "COPY . ./\r\n" ++ "RUN " ++
          chainedRunScripts (ExecInfo.manual ⟨"docker", some "alpine", none,
            none, none, "/o", "/s", none, [⟨"a", "echo 1"⟩, ⟨"b", "echo 2"⟩],
            0, false, none⟩)) :=
  c7_amended_dockerfile_chained_run
    ⟨"docker", some "alpine", none, none, none, "/o", "/s", none,
      [⟨"a", "echo 1"⟩, ⟨"b", "echo 2"⟩], 0, false, none⟩
    "alpine" [⟨"a", "echo 1"⟩] ⟨"b", "echo 2"⟩ rfl rfl (by decide)

theorem dockerignore_foldl_ok :
    ∀ (dirs : List String) (pairs : List (String × String)) (acc : String),
    rsplitAllDotSlash dirs = some pairs →
    dirs.foldl
      (fun acc dir =>
        match acc with
        | .error e => .error e
        | .ok s =>
          match rsplitOnce dir "./" with
          | none => .error unwrapNoneMsg
          | some pr => .ok (s ++ pr.2 ++ "\r\n"))
      (Except.ok acc)
    = .ok (acc ++ dockerignoreLinesFromPairs pairs)
  | [], pairs, acc, h => by
    cases h
    simp [dockerignoreLinesFromPairs]
  | d :: dirs, pairs, acc, h => by
    simp only [rsplitAllDotSlash] at h
    split at h
    · exact absurd h (by simp)
    · rename_i pr hpr
      split at h
      · exact absurd h (by simp)
      · rename_i tail htail
        cases h
        simp only [List.foldl_cons, hpr]
        rw [dockerignore_foldl_ok dirs tail (acc ++ pr.2 ++ "\r\n") htail]
        simp [dockerignoreLinesFromPairs, String.append_assoc]

/-- Claim C8 (amended): for an ExecInfo whose ignore_dirs are set and each
contain "./" (as the default entries and entries resolved from raw
"./"-prefixed paths do), the generated ignore file holds exactly one line
per entry, in order, each line the part of the entry after its last "./"
occurrence; an entry without "./" (e.g. one resolved from an absolute raw
path) makes generation panic instead of succeeding. -/
theorem c8_amended_dockerignore_lines (info : ExecInfo) (dirs : List String)
    (pairs : List (String × String))
    (hd : info.ignore_dirs = some dirs)
    (hp : rsplitAllDotSlash dirs = some pairs) :
    generateDockerignore info = .ok (dockerignoreLinesFromPairs pairs) := by
  unfold generateDockerignore
  rw [hd]
  simp only []
  rw [dockerignore_foldl_ok dirs pairs "" hp]
  simp

/-- Counterexample for C8 as stated: "/abs/foo" is a legitimately resolved
ignore_dirs entry (an absolute raw entry passes through resolution
unchanged), yet ignore-file generation fails on it — rsplit_once("./")
finds no occurrence and the unwrap panics. -/
theorem c8_counterexample_entry_without_dot_slash :
    resolveIgnoreEntries "/r" [Json.str "/abs/foo"] = .ok ["/abs/foo"] ∧
    generateDockerignore ⟨"docker", some "alpine", none, none, none, "/o",
        "/s", none, [⟨"s", "echo hi"⟩], 0, false, some ["/abs/foo"]⟩
      = .error unwrapNoneMsg :=
  ⟨rfl, rfl⟩

/-- Witness for C8 (amended): two "./"-containing resolved entries produce
the two expected rewritten lines in order. -/
theorem c8_amended_dockerignore_lines_witness :
    generateDockerignore ⟨"docker", some "alpine", none, none, none, "/o",
        "/s", none, [⟨"s", "echo hi"⟩], 0, false,
        some ["/r/./dist", "/r/./t"]⟩
      = .ok (dockerignoreLinesFromPairs [("/r/", "dist"), ("/r/", "t")]) :=
  c8_amended_dockerignore_lines
    ⟨"docker", some "alpine", none, none, none, "/o", "/s", none,
      [⟨"s", "echo hi"⟩], 0, false, some ["/r/./dist", "/r/./t"]⟩
    ["/r/./dist", "/r/./t"] [("/r/", "dist"), ("/r/", "t")] rfl rfl

theorem execAction_unsupported {env : Oracle} {root : String} {a : Action}
    (h : unsupportedBackend a) :
    execAction env root a = .error "Specified backend not supported" := by
  simp only [unsupportedBackend, List.mem_cons, List.mem_singleton,
    List.not_mem_nil, or_false, not_or] at h
  obtain ⟨h1, h2, h3, h4⟩ := h
  simp [execAction, ExecInfo.new, h1, h2, h3, h4]

theorem execActions_unsupported_not_ok {env : Oracle} {root : String}
    {actions : List Action} {res : List (List String)}
    (h : ∃ a ∈ actions, unsupportedBackend a) :
    execActions env root actions ≠ .ok res := by
  induction actions generalizing res with
  | nil => rcases h with ⟨a, ha, _⟩; cases ha
  | cons b rest ih =>
    intro hok
    unfold execActions at hok
    rcases h with ⟨a, ha, hu⟩
    rcases List.mem_cons.mp ha with rfl | ha'
    · rw [execAction_unsupported hu] at hok
      exact absurd hok (by simp)
    · split at hok
      · exact absurd hok (by simp)
      · split at hok
        · exact absurd hok (by simp)
        · rename_i htail
          exact ih ⟨a, ha', hu⟩ htail

theorem execActions_first_unsupported {env : Oracle} {root : String}
    (pre : List Action) (post : List Action) (bad : Action)
    (hu : unsupportedBackend bad)
    (hpre : ∀ a ∈ pre, ∃ o, execAction env root a = .ok o) :
    execActions env root (pre ++ bad :: post)
      = .error "Specified backend not supported" := by
  induction pre with
  | nil =>
    simp only [List.nil_append]
    unfold execActions
    rw [execAction_unsupported hu]
  | cons p pre ih =>
    obtain ⟨o, ho⟩ := hpre p (List.mem_cons_self p pre)
    simp only [List.cons_append]
    unfold execActions
    rw [ho, ih (fun a ha => hpre a (List.mem_cons_of_mem p ha))]

/-- Claim C3 (amended): if some action in the sequence has a backend that
is case-insensitively none of "bash", "batch", "bat" or "docker", the run
aborts — it never returns a result, so no output is collected or returned
for any action, including actions earlier in the sequence that already
executed; and when every action before the unsupported one executes
without a fatal error, the abort error is exactly "Specified backend not
supported". (An earlier action can itself abort first with a different
fatal error — see the counterexample — which is the one amendment to the
claim.) -/
theorem c3_amended_unsupported_backend_aborts :
    (∀ (env : Oracle) (root : String) (actions : List Action)
        (res : List (List String)),
      (∃ a ∈ actions, unsupportedBackend a) →
      execActions env root actions ≠ .ok res) ∧
    (∀ (env : Oracle) (root : String) (pre post : List Action) (bad : Action),
      unsupportedBackend bad →
      (∀ a ∈ pre, ∃ o, execAction env root a = .ok o) →
      execActions env root (pre ++ bad :: post)
        = .error "Specified backend not supported") :=
  ⟨fun _ _ _ _ h => execActions_unsupported_not_ok h,
   fun _ _ pre post bad hu hpre => execActions_first_unsupported pre post bad hu hpre⟩

/-- Counterexample for C3 as stated: a docker action whose ignore_dirs
entry "/abs" contains no "./" precedes an action with the unsupported
backend "foo"; the run aborts during the docker action's ignore-file
generation with the unwrap panic, not with "Specified backend not
supported", even though the sequence contains an unsupported backend. -/
theorem c3_counterexample_earlier_docker_abort :
    unsupportedBackend ⟨⟨none, none, none, "bash", none, "foo", "/o", "/s",
        none⟩, ⟨none, 0, false, [⟨"s", "echo hi"⟩]⟩⟩ ∧
    execActions (fun _ _ => ⟨"", "", 0⟩) "/r"
        [⟨⟨none, none, none, "bash", some "alpine", "docker", "/o", "/s",
            some ["/abs"]⟩, ⟨none, 0, false, [⟨"s", "echo hi"⟩]⟩⟩,
         ⟨⟨none, none, none, "bash", none, "foo", "/o", "/s", none⟩,
          ⟨none, 0, false, [⟨"s", "echo hi"⟩]⟩⟩]
      = .error unwrapNoneMsg ∧
    unwrapNoneMsg ≠ "Specified backend not supported" :=
  ⟨by simp only [unsupportedBackend]; decide, rfl, by decide⟩

/-- Witness for C3 (amended): a bash action that executes cleanly followed
by an action with backend "foo" makes the whole run abort with the
specific unsupported-backend error. -/
theorem c3_amended_unsupported_backend_aborts_witness :
    execActions (fun _ _ => ⟨"out", "", 0⟩) "/r"
        ([⟨⟨none, some "t", none, "bash", none, "bash", "/o", "/s", none⟩,
            ⟨none, 0, false, [⟨"s1", "echo hi"⟩]⟩⟩] ++
          ⟨⟨none, none, none, "bash", none, "foo", "/o", "/s", none⟩,
            ⟨none, 0, false, [⟨"s", "echo hi"⟩]⟩⟩ :: [])
      = .error "Specified backend not supported" :=
  c3_amended_unsupported_backend_aborts.2 (fun _ _ => ⟨"out", "", 0⟩) "/r"
    [⟨⟨none, some "t", none, "bash", none, "bash", "/o", "/s", none⟩,
       ⟨none, 0, false, [⟨"s1", "echo hi"⟩]⟩⟩] []
    ⟨⟨none, none, none, "bash", none, "foo", "/o", "/s", none⟩,
      ⟨none, 0, false, [⟨"s", "echo hi"⟩]⟩⟩
    (by simp only [unsupportedBackend]; decide)
    (fun a ha => by
      rcases List.mem_singleton.mp ha with rfl
      exact ⟨["Running s1", "out"], rfl⟩)

/-- Claim C1 (code evaluation at the failing input): the constructor
forces image to none on a non-docker backend, but set_image on the very
same non-docker configuration stores the new image anyway — the method
clears image and then unconditionally overwrites it, contradicting its own
warning that image can only be set on docker backends. -/
theorem c1_set_image_overwrites_on_non_docker :
    (ShareableConfiguration.new none none none "Rust" (some "rust:1.65.0")
        "bash" "/out" "/src" none).backend = "bash" ∧
    lowerStr (ShareableConfiguration.new none none none "Rust" (some "rust:1.65.0")
        "bash" "/out" "/src" none).backend ≠ "docker" ∧
    (ShareableConfiguration.new none none none "Rust" (some "rust:1.65.0")
        "bash" "/out" "/src" none).image = none ∧
    ((ShareableConfiguration.new none none none "Rust" (some "rust:1.65.0")
        "bash" "/out" "/src" none).setImage "alpine:latest").image
      = some "alpine:latest" :=
  ⟨rfl, by decide, rfl, rfl⟩

end Cider
